import Mathlib

/-!
Shallow embedding of `coverage/pep669_tracer.py` (the PEP-669 raw data
tracer of coverage.py) and verification of the specification claims
about it.

Modelling conventions, stated once here:

* Python dictionaries are modelled as association lists with
  first-match lookup (`lookupA`) and replace-or-append update (`setA`);
  this matches `dict.get` / `dict.__setitem__` semantics exactly.
* Python sets of line numbers / arcs are modelled as lists without
  duplicates, with `set.add` as insert-if-absent (`setAdd`, idempotent
  as in Python); set equality is mutual membership (`sameSet`).
* In the source, `self.cur_file_data`, `CodeInfo.file_data` and the
  frame-stack entries all *alias* the set object stored at
  `self.data[tracename]`, and `self.data[tracename]` is never rebound
  once created (it is only created when absent).  We therefore flatten
  the aliasing by storing the canonical key (`tracename`) instead of a
  reference; a mutation through the alias is a mutation of the store at
  that key.
* Python methods mutate `self` in place; a raised exception leaves all
  mutations performed before the raise visible.  Handlers that can
  raise therefore return `Except (PyErr × TracerState) TracerState`,
  the error carrying the state at the moment of the raise.
* `sys.monitoring.set_events(id, 0)` (disabling event delivery) versus
  a non-zero mask is abstracted as the boolean field `monitoring_on`;
  `set_local_events` requests are logged in `local_events`.
* The `threading` module reference is abstracted to a `Bool` ("a
  threading module is configured") plus the recorded `thread` identity,
  since only identity comparison of thread idents is used.
* Calls to the external `should_trace` predicate are logged in
  `stc_calls` so that invocation counts can be stated; the predicate
  itself is a parameter `String → Except PyErr FileDisposition`
  (it may raise).
* Diagnostic file logging (`log`, the `/tmp/pan.out` writes inside
  `panopticon`) is pure I/O with no effect on tracer state and is
  omitted.
-/

/-- One bytecode instruction as yielded by `dis.get_instructions`:
its offset and its `starts_line` attribute (`None` when the
instruction does not start a new source line). -/
structure Instr where
  offset : Int
  starts_line : Option Int
deriving DecidableEq

/-- A Python code object (`types.CodeType`) as far as the tracer
observes it: its file name, its first line number, and its
instructions.  `id` models CPython object identity, which is what
keying `self.code_infos` by the code object compares. -/
structure Code where
  id : Nat
  co_filename : String
  co_firstlineno : Int
  instructions : List Instr
deriving DecidableEq

/-- Result of the external trace-decision predicate for one file:
the `TFileDisposition` fields the tracer reads. -/
structure FileDisposition where
  trace : Bool
  source_filename : Option String
deriving DecidableEq

/-- The `CodeInfo` dataclass of the source: per-code-object memo of
the tracing decision.  `file_data` holds the canonical key of the
Collected Data Store entry this code feeds (see the aliasing note in
the file header); `byte_to_line` is the cached `bytes_to_lines`
result (`None` for untraced code). -/
structure CodeInfo where
  tracing : Bool
  file_data : Option String
  byte_to_line : Option (List (Int × Option Int))
deriving DecidableEq

/-- One collected data point: a bare line number (line mode) or a
(from-line, to-line) arc (arc mode). -/
inductive Datum where
  | line (n : Int)
  | arc (a b : Int)
deriving DecidableEq

/-- Python exceptions the embedded code can raise. -/
inductive PyErr where
  | assertionError
  | attributeError
  | external (msg : String)
deriving DecidableEq

/-- First-match association-list lookup, the model of `dict.get`. -/
def lookupA {α β : Type} [DecidableEq α] : List (α × β) → α → Option β
  | [], _ => none
  | (k, v) :: rest, k2 => if k = k2 then some v else lookupA rest k2

/-- Replace-or-append association-list update, the model of
`dict.__setitem__`. -/
def setA {α β : Type} [DecidableEq α] : List (α × β) → α → β → List (α × β)
  | [], k2, v2 => [(k2, v2)]
  | (k, v) :: rest, k2, v2 =>
      if k = k2 then (k2, v2) :: rest else (k, v) :: setA rest k2 v2

/-- Model of Python `set.add`: insert-if-absent (idempotent). -/
def setAdd (l : List Datum) (d : Datum) : List Datum :=
  if d ∈ l then l else l ++ [d]

/-- Equality of the list-modelled sets as sets: mutual membership
(Python set equality). -/
def sameSet (l r : List Datum) : Bool :=
  l.all (fun d => d ∈ r) && r.all (fun d => d ∈ l)

/-- The mutable state of a `Pep669Tracer` instance (its attributes as
set in `__init__` and by the collector), flattened per the conventions
in the file header. -/
structure TracerState where
  trace_arcs : Bool
  data : List (String × List Datum)
  should_trace_cache : List (String × FileDisposition)
  code_infos : List (Code × CodeInfo)
  cur_file_data : Option String
  cur_file_name : Option String
  last_line : Int
  frame_stack : List (Option String × Option String × Int)
  stats_starts : Nat
  activity : Bool
  threading : Bool
  thread : Option Int
  stopped : Bool
  in_atexit : Bool
  monitoring_on : Bool
  local_events : List Code
  cached_bound_method_trace : Option Unit
  stc_calls : List String
deriving DecidableEq

/-- The state of a freshly constructed tracer (`__init__`), after the
collector has supplied `trace_arcs`, the (empty) caches/data and the
threading configuration.  `cached_bound_method_trace` is `none`
because no statement in the source file ever assigns that attribute. -/
def initState (trace_arcs threading : Bool) : TracerState :=
  { trace_arcs := trace_arcs
    data := []
    should_trace_cache := []
    code_infos := []
    cur_file_data := none
    cur_file_name := none
    last_line := 0
    frame_stack := []
    stats_starts := 0
    activity := false
    threading := threading
    thread := none
    stopped := false
    in_atexit := false
    monitoring_on := false
    local_events := []
    cached_bound_method_trace := none
    stc_calls := [] }

/-- Model of `self.cur_file_data.add(d)`: through the aliasing
flattening, an insertion into the store entry at key `key`.  (The
entry always exists when a key is current; `getD []` is unreachable
defensive totality.) -/
def addDatum (s : TracerState) (key : String) (d : Datum) : TracerState :=
  { s with data := setA s.data key (setAdd ((lookupA s.data key).getD []) d) }

/-- The loop body of `bytes_to_lines`: fold over the instructions,
carrying the dict built so far and `cur_line`. -/
def b2lAux : List Instr → List (Int × Option Int) → Option Int → List (Int × Option Int)
  | [], b2l, _ => b2l
  | inst :: rest, b2l, cur_line =>
      let cur := match inst.starts_line with
        | some l => some l
        | none => cur_line
      b2lAux rest (setA b2l inst.offset cur) cur

/-- The `bytes_to_lines` function of the source: map every
instruction offset to the most recently seen `starts_line`. -/
def bytes_to_lines (code : Code) : List (Int × Option Int) :=
  b2lAux code.instructions [] none

/-- The tail of `sysmon_py_start` beginning at `tracing_code = disp.trace`
(the part reached on both the cache-hit and the predicate-call paths,
once `disp` is in hand).  Includes the `assert tracename is not None`. -/
def finishStart (disp : FileDisposition) (code : Code) (s : TracerState) :
    Except (PyErr × TracerState) TracerState :=
  if disp.trace then
    match disp.source_filename with
    | none => .error (.assertionError, s)
    | some tracename =>
        let s1 : TracerState :=
          if (lookupA s.data tracename).isNone then
            { s with data := setA s.data tracename [] }
          else s
        let s2 : TracerState := { s1 with cur_file_data := some tracename }
        let b2l := bytes_to_lines code
        let ci : CodeInfo := ⟨true, some tracename, some b2l⟩
        let s3 : TracerState := { s2 with code_infos := setA s2.code_infos code ci }
        let s4 : TracerState := { s3 with local_events := s3.local_events ++ [code] }
        .ok { s4 with last_line := -code.co_firstlineno }
  else
    let s1 : TracerState := { s with cur_file_data := none }
    let s2 : TracerState :=
      { s1 with code_infos := setA s1.code_infos code ⟨false, none, none⟩ }
    .ok { s2 with last_line := -code.co_firstlineno }

/-- The `sysmon_py_start` handler.  `should_trace` is the external
predicate; a `.error` result is a raised exception carrying the state
at the raise. -/
def sysmon_py_start (should_trace : String → Except PyErr FileDisposition)
    (code : Code) (s : TracerState) : Except (PyErr × TracerState) TracerState :=
  let s1 : TracerState :=
    { s with activity := true,
             stats_starts := s.stats_starts + 1,
             frame_stack :=
               (s.cur_file_data, s.cur_file_name, s.last_line) :: s.frame_stack }
  match lookupA s1.code_infos code with
  | some ci =>
      .ok { s1 with cur_file_data := ci.file_data, last_line := -code.co_firstlineno }
  | none =>
      let s2 : TracerState :=
        { s1 with cur_file_data := none, cur_file_name := some code.co_filename }
      match lookupA s2.should_trace_cache code.co_filename with
      | some disp => finishStart disp code s2
      | none =>
          let s3 : TracerState :=
            { s2 with stc_calls := s2.stc_calls ++ [code.co_filename] }
          match should_trace code.co_filename with
          | .error e => .error (e, s3)
          | .ok disp =>
              let c2 := setA s3.should_trace_cache code.co_filename disp
              finishStart disp code { s3 with should_trace_cache := c2 }

/-- The `sysmon_py_resume` handler: push the caller triple, adopt the
frame's live line number (`frame.f_lineno`, an event input here). -/
def sysmon_py_resume (frame_lineno : Int) (s : TracerState) : TracerState :=
  { s with frame_stack :=
             (s.cur_file_data, s.cur_file_name, s.last_line) :: s.frame_stack,
           last_line := frame_lineno }

/-- The `sysmon_py_return` handler: record the exit arc if tracing,
then pop the frame stack if it is nonempty. -/
def sysmon_py_return (code : Code) (s : TracerState) : TracerState :=
  let s1 : TracerState :=
    match s.cur_file_data with
    | some key =>
        if s.trace_arcs then addDatum s key (.arc s.last_line (-code.co_firstlineno))
        else s
    | none => s
  match s1.frame_stack with
  | [] => s1
  | (fd, fn, ll) :: rest =>
      { s1 with cur_file_data := fd,
                cur_file_name := fn,
                last_line := ll,
                frame_stack := rest }

/-- The `sysmon_py_yield` handler: its body is `...`, a no-op. -/
def sysmon_py_yield (s : TracerState) : TracerState := s

/-- The `sysmon_line` handler (the `code` argument is unused by the
source body, so it is not a parameter here). -/
def sysmon_line (line_number : Int) (s : TracerState) : TracerState :=
  match s.cur_file_data with
  | none => s
  | some key =>
      let s1 : TracerState :=
        if s.trace_arcs then addDatum s key (.arc s.last_line line_number)
        else addDatum s key (.line line_number)
      { s1 with last_line := line_number }

/-- The `panopticon` decorator's exception wrapper: on an exception
escaping the wrapped handler it calls
`sys.monitoring.set_events(COVERAGE_ID, 0)` (modelled as
`monitoring_on := false`) and re-raises.  The logging it performs is
pure I/O and is omitted. -/
def panopticon (meth : TracerState → Except (PyErr × TracerState) TracerState)
    (s : TracerState) : Except (PyErr × TracerState) TracerState :=
  match meth s with
  | .ok s2 => .ok s2
  | .error (e, s2) => .error (e, { s2 with monitoring_on := false })

/-- The registration tail of `start()`: claim the tool id and enable
the call-level events (abstracted as `monitoring_on := true`); the
method body has no `return` statement on this path, so the Python
return value is `None`. -/
def startBody (s : TracerState) : Except (PyErr × TracerState) (Option Unit × TracerState) :=
  .ok (none, { s with monitoring_on := true })

/-- The `start()` method.  `current_thread` is the ident of
`threading.current_thread()`.  On the different-thread path the source
returns `self._cached_bound_method_trace`; since that attribute is
never assigned anywhere in the file, reading it raises
`AttributeError` when the field is `none`. -/
def tracerStart (current_thread : Int) (s0 : TracerState) :
    Except (PyErr × TracerState) (Option Unit × TracerState) :=
  let s : TracerState := { s0 with stopped := false }
  if s.threading then
    match s.thread with
    | none => startBody { s with thread := some current_thread }
    | some t =>
        if t ≠ current_thread then
          match s.cached_bound_method_trace with
          | none => .error (.attributeError, s)
          | some f => .ok (some f, s)
        else startBody s
  else startBody s

/-- A VM event as delivered to the registered callbacks.
`pyResume` carries the live `frame.f_lineno` the handler reads. -/
inductive Event where
  | pyStart (code : Code)
  | pyResume (frame_lineno : Int)
  | pyReturn (code : Code)
  | pyYield (code : Code)
  | lineEx (line_number : Int)
deriving DecidableEq

/-- Dispatch one event to its handler, through the `panopticon`
wrapper where the source applies it.  The pure handlers cannot raise,
so their wrapper is the identity and they are dispatched directly. -/
def step (env : String → Except PyErr FileDisposition) (e : Event) (s : TracerState) :
    Except (PyErr × TracerState) TracerState :=
  match e with
  | .pyStart c => panopticon (sysmon_py_start env c) s
  | .pyResume n => .ok (sysmon_py_resume n s)
  | .pyReturn c => .ok (sysmon_py_return c s)
  | .pyYield _ => .ok (sysmon_py_yield s)
  | .lineEx n => .ok (sysmon_line n s)

/-- Process a sequence of events; a raised exception aborts the run
(the VM delivers no further events to a raising callback chain). -/
def runEvents (env : String → Except PyErr FileDisposition) :
    List Event → TracerState → Except (PyErr × TracerState) TracerState
  | [], s => .ok s
  | e :: rest, s =>
      match step env e s with
      | .ok s1 => runEvents env rest s1
      | .error es => .error es

/-- Extract the state of a successful run (default otherwise). -/
def getOk (r : Except (PyErr × TracerState) TracerState) (dflt : TracerState) : TracerState :=
  match r with
  | .ok s => s
  | .error _ => dflt

/-! ### Association-list lemmas -/

theorem lookupA_setA_self {α β : Type} [DecidableEq α] (l : List (α × β)) (k : α) (v : β) :
    lookupA (setA l k v) k = some v := by
  induction l with
  | nil => simp [setA, lookupA]
  | cons p rest ih =>
      obtain ⟨k1, v1⟩ := p
      by_cases h : k1 = k <;> simp [setA, lookupA, h, ih]

theorem lookupA_setA_ne {α β : Type} [DecidableEq α] (l : List (α × β)) (k k2 : α) (v : β)
    (h : k ≠ k2) : lookupA (setA l k v) k2 = lookupA l k2 := by
  induction l with
  | nil => simp [setA, lookupA, h]
  | cons p rest ih =>
      obtain ⟨k1, v1⟩ := p
      by_cases h1 : k1 = k
      · subst h1
        simp [setA, lookupA, h]
      · simp [setA, lookupA, h1, ih]

theorem mem_setA {α β : Type} [DecidableEq α] (l : List (α × β)) (k : α) (v : β)
    (p : α × β) (h : p ∈ setA l k v) : p = (k, v) ∨ p ∈ l := by
  induction l with
  | nil => simpa [setA] using h
  | cons q rest ih =>
      obtain ⟨k1, v1⟩ := q
      by_cases h1 : k1 = k
      · subst h1
        simp only [setA, if_pos rfl] at h
        rcases List.mem_cons.mp h with h2 | h2
        · exact Or.inl h2
        · exact Or.inr (List.mem_cons.mpr (Or.inr h2))
      · simp only [setA, if_neg h1] at h
        rcases List.mem_cons.mp h with h2 | h2
        · exact Or.inr (List.mem_cons.mpr (Or.inl h2))
        · rcases ih h2 with h3 | h3
          · exact Or.inl h3
          · exact Or.inr (List.mem_cons.mpr (Or.inr h3))

theorem lookupA_some_mem {α β : Type} [DecidableEq α] (l : List (α × β)) (k : α) (v : β)
    (h : lookupA l k = some v) : (k, v) ∈ l := by
  induction l with
  | nil => simp [lookupA] at h
  | cons q rest ih =>
      obtain ⟨k1, v1⟩ := q
      by_cases h1 : k1 = k
      · subst h1
        simp only [lookupA, if_true, eq_self_iff_true, Option.some.injEq] at h
        subst h
        exact List.mem_cons_self _ _
      · simp only [lookupA, if_neg h1] at h
        exact List.mem_cons.mpr (Or.inr (ih h))

/-! ### Path characterizations of the handlers -/

theorem finishStart_eq_false (disp : FileDisposition) (c : Code) (t : TracerState)
    (h : disp.trace = false) :
    finishStart disp c t =
      .ok { t with cur_file_data := none,
                   code_infos := setA t.code_infos c ⟨false, none, none⟩,
                   last_line := -c.co_firstlineno } := by
  simp [finishStart, h]

theorem finishStart_eq_assert (disp : FileDisposition) (c : Code) (t : TracerState)
    (h : disp.trace = true) (h2 : disp.source_filename = none) :
    finishStart disp c t = .error (.assertionError, t) := by
  simp [finishStart, h, h2]

theorem finishStart_eq_some (disp : FileDisposition) (c : Code) (t : TracerState) (tn : String)
    (h : disp.trace = true) (h2 : disp.source_filename = some tn) :
    finishStart disp c t =
      .ok { t with data := if (lookupA t.data tn).isNone then setA t.data tn [] else t.data,
                   cur_file_data := some tn,
                   code_infos := setA t.code_infos c ⟨true, some tn, some (bytes_to_lines c)⟩,
                   local_events := t.local_events ++ [c],
                   last_line := -c.co_firstlineno } := by
  by_cases h3 : (lookupA t.data tn).isNone <;> simp [finishStart, h, h2, h3]

/-- The state after the unconditional prefix of `sysmon_py_start`
(activity, stats, frame push). -/
def pushedState (s : TracerState) : TracerState :=
  { s with activity := true,
           stats_starts := s.stats_starts + 1,
           frame_stack :=
             (s.cur_file_data, s.cur_file_name, s.last_line) :: s.frame_stack }

/-- The state `sysmon_py_start` has built when it is about to consult
the decision cache (code-info miss). -/
def resolvingState (c : Code) (s : TracerState) : TracerState :=
  { pushedState s with cur_file_data := none, cur_file_name := some c.co_filename }

theorem sysmon_py_start_cached (env : String → Except PyErr FileDisposition)
    (c : Code) (s : TracerState) (ci : CodeInfo)
    (h : lookupA s.code_infos c = some ci) :
    sysmon_py_start env c s =
      .ok { pushedState s with cur_file_data := ci.file_data,
                               last_line := -c.co_firstlineno } := by
  simp [sysmon_py_start, pushedState, h]

theorem sysmon_py_start_cachehit (env : String → Except PyErr FileDisposition)
    (c : Code) (s : TracerState) (disp : FileDisposition)
    (h1 : lookupA s.code_infos c = none)
    (h2 : lookupA s.should_trace_cache c.co_filename = some disp) :
    sysmon_py_start env c s = finishStart disp c (resolvingState c s) := by
  simp [sysmon_py_start, pushedState, resolvingState, h1, h2]

theorem sysmon_py_start_miss_err (env : String → Except PyErr FileDisposition)
    (c : Code) (s : TracerState) (e : PyErr)
    (h1 : lookupA s.code_infos c = none)
    (h2 : lookupA s.should_trace_cache c.co_filename = none)
    (h3 : env c.co_filename = .error e) :
    sysmon_py_start env c s =
      .error (e, { resolvingState c s with
                     stc_calls := s.stc_calls ++ [c.co_filename] }) := by
  simp [sysmon_py_start, pushedState, resolvingState, h1, h2, h3]

theorem sysmon_py_start_miss_ok (env : String → Except PyErr FileDisposition)
    (c : Code) (s : TracerState) (disp : FileDisposition)
    (h1 : lookupA s.code_infos c = none)
    (h2 : lookupA s.should_trace_cache c.co_filename = none)
    (h3 : env c.co_filename = .ok disp) :
    sysmon_py_start env c s =
      finishStart disp c
        { resolvingState c s with
            stc_calls := s.stc_calls ++ [c.co_filename],
            should_trace_cache := setA s.should_trace_cache c.co_filename disp } := by
  simp [sysmon_py_start, pushedState, resolvingState, h1, h2, h3]

/-! ### Frame-stack shape of each handler -/

theorem panopticon_ok_iff (meth : TracerState → Except (PyErr × TracerState) TracerState)
    (s s' : TracerState) : panopticon meth s = .ok s' ↔ meth s = .ok s' := by
  unfold panopticon
  cases h : meth s with
  | ok t => simp
  | error et => obtain ⟨e, t⟩ := et; simp

theorem finishStart_ok_frame_stack (disp : FileDisposition) (c : Code) (t u : TracerState)
    (h : finishStart disp c t = .ok u) : u.frame_stack = t.frame_stack := by
  by_cases htr : disp.trace = true
  · cases hsf : disp.source_filename with
    | none => rw [finishStart_eq_assert disp c t htr hsf] at h; cases h
    | some tn => rw [finishStart_eq_some disp c t tn htr hsf] at h; cases h; rfl
  · have htr2 : disp.trace = false := by simpa using htr
    rw [finishStart_eq_false disp c t htr2] at h; cases h; rfl

theorem sysmon_py_start_ok_frame_stack (env : String → Except PyErr FileDisposition)
    (c : Code) (s s' : TracerState) (h : sysmon_py_start env c s = .ok s') :
    s'.frame_stack = (s.cur_file_data, s.cur_file_name, s.last_line) :: s.frame_stack := by
  cases hci : lookupA s.code_infos c with
  | some ci =>
      rw [sysmon_py_start_cached env c s ci hci] at h
      cases h; rfl
  | none =>
      cases hd : lookupA s.should_trace_cache c.co_filename with
      | some disp =>
          rw [sysmon_py_start_cachehit env c s disp hci hd] at h
          exact finishStart_ok_frame_stack disp c _ s' h
      | none =>
          cases he : env c.co_filename with
          | error e =>
              rw [sysmon_py_start_miss_err env c s e hci hd he] at h
              cases h
          | ok disp =>
              rw [sysmon_py_start_miss_ok env c s disp hci hd he] at h
              exact finishStart_ok_frame_stack disp c _ s' h

theorem sysmon_py_resume_frame_stack (n : Int) (s : TracerState) :
    (sysmon_py_resume n s).frame_stack =
      (s.cur_file_data, s.cur_file_name, s.last_line) :: s.frame_stack := rfl

theorem sysmon_line_frame_stack (n : Int) (s : TracerState) :
    (sysmon_line n s).frame_stack = s.frame_stack := by
  cases h : s.cur_file_data with
  | none => simp [sysmon_line, h]
  | some key => by_cases ha : s.trace_arcs <;> simp [sysmon_line, h, ha, addDatum]

theorem sysmon_py_return_frame_stack (c : Code) (s : TracerState) :
    (sysmon_py_return c s).frame_stack = s.frame_stack.tail := by
  unfold sysmon_py_return addDatum
  cases h : s.cur_file_data with
  | none =>
      cases hf : s.frame_stack with
      | nil => simp [h, hf]
      | cons p rest => obtain ⟨fd, fn, ll⟩ := p; simp [h, hf]
  | some key =>
      by_cases ha : s.trace_arcs
      · cases hf : s.frame_stack with
        | nil => simp [h, hf, ha]
        | cons p rest => obtain ⟨fd, fn, ll⟩ := p; simp [h, hf, ha]
      · cases hf : s.frame_stack with
        | nil => simp [h, hf, ha]
        | cons p rest => obtain ⟨fd, fn, ll⟩ := p; simp [h, hf, ha]

/-! ### Well-formed event sequences (C1) -/

/-- Number of yield events in a sequence. -/
def yieldCount : List Event → Nat
  | [] => 0
  | .pyYield _ :: rest => yieldCount rest + 1
  | .pyStart _ :: rest => yieldCount rest
  | .pyResume _ :: rest => yieldCount rest
  | .pyReturn _ :: rest => yieldCount rest
  | .lineEx _ :: rest => yieldCount rest

/-- Matching discipline of the claim: reading the sequence left to
right with `d` currently-open frames, every exit event (return or
yield) is matched to a prior unmatched entry event (start or resume),
and at the end every entry has been matched. -/
def wfAux : List Event → Nat → Bool
  | [], d => d == 0
  | .pyStart _ :: rest, d => wfAux rest (d + 1)
  | .pyResume _ :: rest, d => wfAux rest (d + 1)
  | .pyReturn _ :: rest, d => decide (0 < d) && wfAux rest (d - 1)
  | .pyYield _ :: rest, d => decide (0 < d) && wfAux rest (d - 1)
  | .lineEx _ :: rest, d => wfAux rest d

/-- A well-formed sequence of VM events: every exit matched to a
prior entry (yields and returns matched against starts and resumes),
with no unmatched entries left over. -/
def wellFormed (evs : List Event) : Bool := wfAux evs 0

theorem runEvents_stack_len (env : String → Except PyErr FileDisposition) :
    ∀ (evs : List Event) (d : Nat) (s s' : TracerState),
      wfAux evs d = true → d ≤ s.frame_stack.length →
      runEvents env evs s = .ok s' →
      s'.frame_stack.length + d = s.frame_stack.length + yieldCount evs := by
  intro evs
  induction evs with
  | nil =>
      intro d s s' hwf hd hrun
      simp only [wfAux, beq_iff_eq] at hwf
      simp only [runEvents, Except.ok.injEq] at hrun
      subst hrun
      simp [hwf, yieldCount]
  | cons e rest ih =>
      intro d s s' hwf hd hrun
      cases e with
      | pyStart c =>
          simp only [runEvents, step] at hrun
          cases hstep : panopticon (sysmon_py_start env c) s with
          | error et => rw [hstep] at hrun; cases hrun
          | ok s1 =>
              rw [hstep] at hrun
              have hstart := (panopticon_ok_iff (sysmon_py_start env c) s s1).mp hstep
              have hframe := sysmon_py_start_ok_frame_stack env c s s1 hstart
              have hlen : s1.frame_stack.length = s.frame_stack.length + 1 := by
                rw [hframe]; simp
              simp only [wfAux] at hwf
              have := ih (d + 1) s1 s' hwf (by omega) hrun
              simp only [yieldCount]
              omega
      | pyResume n =>
          simp only [runEvents, step] at hrun
          have hlen : (sysmon_py_resume n s).frame_stack.length
              = s.frame_stack.length + 1 := by
            rw [sysmon_py_resume_frame_stack]; simp
          simp only [wfAux] at hwf
          have := ih (d + 1) (sysmon_py_resume n s) s' hwf (by omega) hrun
          simp only [yieldCount]
          omega
      | pyReturn c =>
          simp only [runEvents, step] at hrun
          simp only [wfAux, Bool.and_eq_true, decide_eq_true_eq] at hwf
          obtain ⟨hd0, hwf⟩ := hwf
          have hlen : (sysmon_py_return c s).frame_stack.length
              = s.frame_stack.length - 1 := by
            rw [sysmon_py_return_frame_stack]; simp [List.length_tail]
          have := ih (d - 1) (sysmon_py_return c s) s' hwf (by omega) hrun
          simp only [yieldCount]
          omega
      | pyYield c =>
          simp only [runEvents, step] at hrun
          simp only [wfAux, Bool.and_eq_true, decide_eq_true_eq] at hwf
          obtain ⟨hd0, hwf⟩ := hwf
          have hy : (sysmon_py_yield s).frame_stack.length = s.frame_stack.length := rfl
          have := ih (d - 1) (sysmon_py_yield s) s' hwf (by omega) hrun
          simp only [yieldCount]
          omega
      | lineEx n =>
          simp only [runEvents, step] at hrun
          simp only [wfAux] at hwf
          have hlen : (sysmon_line n s).frame_stack.length = s.frame_stack.length := by
            rw [sysmon_line_frame_stack]
          have := ih d (sysmon_line n s) s' hwf (by omega) hrun
          simp only [yieldCount]
          omega

/-! ### Concrete fixtures for scenario theorems and witnesses -/

/-- A unit `U` whose first line is 10, with three line-starting
instructions (lines 10, 11, 12). -/
def codeU : Code :=
  { id := 0, co_filename := "u.py", co_firstlineno := 10,
    instructions := [⟨0, some 10⟩, ⟨2, some 11⟩, ⟨4, some 12⟩] }

/-- An external predicate that traces every file under its own name. -/
def envTraceAll : String → Except PyErr FileDisposition :=
  fun f => .ok ⟨true, some f⟩

/-- An external predicate that declines to trace every file. -/
def envTraceNone : String → Except PyErr FileDisposition :=
  fun _ => .ok ⟨false, none⟩

/-- Scenario A event sequence: enter `U`, execute lines 10, 11, 12,
return. -/
def evsScenarioA : List Event :=
  [.pyStart codeU, .lineEx 10, .lineEx 11, .lineEx 12, .pyReturn codeU]

/-- A well-formed sequence with one suspension: enter `U`, yield,
resume, return. -/
def evsSuspend : List Event :=
  [.pyStart codeU, .pyYield codeU, .pyResume 11, .pyReturn codeU]

/-- A well-formed, suspension-free sequence. -/
def evsPlain : List Event :=
  [.pyStart codeU, .lineEx 10, .pyReturn codeU]

/-! ### C1: stack balance -/

/-- C1 (counterexample): the claim "for every well-formed sequence of
VM events (exits matched to prior entries, including yield/resume
pairs for suspended units) the frame-stack depth after processing
equals the depth before" is false on the code: the sequence
start–yield–resume–return is well formed in exactly that sense, is
processed without error from the freshly constructed tracer (depth
0), yet leaves the Frame Stack at depth 1, because
`sysmon_py_resume` pushes an entry while `sysmon_py_yield` (body
`...`) pops nothing. -/
theorem c1_stack_balance_counterexample :
    wellFormed evsSuspend = true ∧
    (runEvents envTraceNone evsSuspend (initState false false)).toOption.map
        (fun t => t.frame_stack.length) = some 1 ∧
    (initState false false).frame_stack.length = 0 := by
  refine ⟨by decide, by decide, by decide⟩

/-- C1 (amended): for every well-formed sequence of VM events
processed without error, the depth of the Frame Stack after
processing exceeds its depth before by exactly the number of yield
events (so the depth is preserved exactly when no unit is
suspended): `sysmon_py_start` and `sysmon_py_resume` each push one
entry, `sysmon_py_return` pops one, and `sysmon_py_yield` pops
nothing. -/
theorem c1_stack_balance_amended (env : String → Except PyErr FileDisposition)
    (evs : List Event) (s s' : TracerState)
    (hwf : wellFormed evs = true) (hrun : runEvents env evs s = .ok s') :
    s'.frame_stack.length = s.frame_stack.length + yieldCount evs := by
  have h := runEvents_stack_len env evs 0 s s' hwf (Nat.zero_le _) hrun
  omega

/-- The state reached by the suspension-free run used as the C1
witness input. -/
def resPlain : TracerState :=
  getOk (runEvents envTraceNone evsPlain (initState false false)) (initState false false)

/-- Witness for `c1_stack_balance_amended` at a concrete input. -/
theorem c1_stack_balance_witness :
    resPlain.frame_stack.length
      = (initState false false).frame_stack.length + yieldCount evsPlain :=
  c1_stack_balance_amended envTraceNone evsPlain (initState false false) resPlain
    (by decide) (by rfl)

/-! ### C2: Scenario A end-to-end -/

/-- The tracer state after Scenario A in line mode. -/
def resScenarioALine : TracerState :=
  getOk (runEvents envTraceAll evsScenarioA (initState false false)) (initState false false)

/-- The tracer state after Scenario A in arc mode. -/
def resScenarioAArc : TracerState :=
  getOk (runEvents envTraceAll evsScenarioA (initState true false)) (initState true false)

/-- C2: for the traced unit `U` with first line 10, processing
unit-start, line 10, line 11, line 12, unit-return yields a Collected
Data Store entry for U's file equal (as a set) to lines 10, 11, 12 in
line mode, and to the arcs (-10,10), (10,11), (11,12), (12,-10) in
arc mode. -/
theorem c2_scenario_a :
    (lookupA resScenarioALine.data "u.py").map
        (fun l => sameSet l [Datum.line 10, Datum.line 11, Datum.line 12]) = some true ∧
    (lookupA resScenarioAArc.data "u.py").map
        (fun l => sameSet l
          [Datum.arc (-10) 10, Datum.arc 10 11, Datum.arc 11 12, Datum.arc 12 (-10)])
      = some true := by
  refine ⟨by decide, by decide⟩

/-! ### C3: idempotent trace decision -/

/-- Number of occurrences of `f` in a list of file names (used to
count invocations of the external predicate logged in `stc_calls`). -/
def countOcc (f : String) : List String → Nat
  | [] => 0
  | g :: rest => (if g = f then 1 else 0) + countOcc f rest

/-- Does the sequence contain a unit-start event for a code unit
whose file name is `f`? -/
def hasStartFor (f : String) : List Event → Bool
  | [] => false
  | .pyStart c :: rest => decide (c.co_filename = f) || hasStartFor f rest
  | .pyResume _ :: rest => hasStartFor f rest
  | .pyReturn _ :: rest => hasStartFor f rest
  | .pyYield _ :: rest => hasStartFor f rest
  | .lineEx _ :: rest => hasStartFor f rest

theorem countOcc_append (f : String) (l1 l2 : List String) :
    countOcc f (l1 ++ l2) = countOcc f l1 + countOcc f l2 := by
  induction l1 with
  | nil => simp [countOcc]
  | cons g rest ih => simp [countOcc, ih]; omega

/-- The invariant tying predicate invocations to the decision cache:
the predicate has been invoked for `f` exactly once if `f` is cached
and never otherwise, and every registered code unit with file name
`f` implies `f` is cached. -/
def CacheInv (f : String) (s : TracerState) : Prop :=
  countOcc f s.stc_calls
      = (if (lookupA s.should_trace_cache f).isSome then 1 else 0) ∧
  ∀ p ∈ s.code_infos, p.1.co_filename = f →
      (lookupA s.should_trace_cache f).isSome = true

theorem cacheInv_congr (f : String) (s t : TracerState)
    (h1 : t.stc_calls = s.stc_calls)
    (h2 : t.should_trace_cache = s.should_trace_cache)
    (h3 : t.code_infos = s.code_infos) (hinv : CacheInv f s) : CacheInv f t := by
  obtain ⟨hc, hm⟩ := hinv
  constructor
  · rw [h1, h2]; exact hc
  · intro p hp hpf
    rw [h2]
    rw [h3] at hp
    exact hm p hp hpf

theorem finishStart_ok_fields (disp : FileDisposition) (c : Code) (t u : TracerState)
    (h : finishStart disp c t = .ok u) :
    u.stc_calls = t.stc_calls ∧ u.should_trace_cache = t.should_trace_cache ∧
    ∃ ci, u.code_infos = setA t.code_infos c ci := by
  by_cases htr : disp.trace = true
  · cases hsf : disp.source_filename with
    | none => rw [finishStart_eq_assert disp c t htr hsf] at h; cases h
    | some tn =>
        rw [finishStart_eq_some disp c t tn htr hsf] at h
        cases h
        exact ⟨rfl, rfl, ⟨true, some tn, some (bytes_to_lines c)⟩, rfl⟩
  · have htr2 : disp.trace = false := by simpa using htr
    rw [finishStart_eq_false disp c t htr2] at h
    cases h
    exact ⟨rfl, rfl, ⟨false, none, none⟩, rfl⟩

theorem sysmon_line_fields (n : Int) (s : TracerState) :
    (sysmon_line n s).stc_calls = s.stc_calls ∧
    (sysmon_line n s).should_trace_cache = s.should_trace_cache ∧
    (sysmon_line n s).code_infos = s.code_infos := by
  cases h : s.cur_file_data with
  | none => simp [sysmon_line, h]
  | some key => by_cases ha : s.trace_arcs <;> simp [sysmon_line, h, ha, addDatum]

theorem sysmon_py_return_fields (c : Code) (s : TracerState) :
    (sysmon_py_return c s).stc_calls = s.stc_calls ∧
    (sysmon_py_return c s).should_trace_cache = s.should_trace_cache ∧
    (sysmon_py_return c s).code_infos = s.code_infos := by
  unfold sysmon_py_return addDatum
  cases h : s.cur_file_data with
  | none =>
      cases hf : s.frame_stack with
      | nil => simp [h, hf]
      | cons p rest => obtain ⟨fd, fn, ll⟩ := p; simp [h, hf]
  | some key =>
      by_cases ha : s.trace_arcs
      · cases hf : s.frame_stack with
        | nil => simp [h, hf, ha]
        | cons p rest => obtain ⟨fd, fn, ll⟩ := p; simp [h, hf, ha]
      · cases hf : s.frame_stack with
        | nil => simp [h, hf, ha]
        | cons p rest => obtain ⟨fd, fn, ll⟩ := p; simp [h, hf, ha]

theorem sysmon_py_start_cache_effects (f : String)
    (env : String → Except PyErr FileDisposition) (c : Code) (s s' : TracerState)
    (h : sysmon_py_start env c s = .ok s') (hinv : CacheInv f s) :
    CacheInv f s' ∧
    (c.co_filename = f → (lookupA s'.should_trace_cache f).isSome = true) ∧
    (c.co_filename ≠ f →
      lookupA s'.should_trace_cache f = lookupA s.should_trace_cache f) := by
  obtain ⟨hcount, hmem⟩ := hinv
  cases hci : lookupA s.code_infos c with
  | some ci =>
      rw [sysmon_py_start_cached env c s ci hci] at h
      cases h
      refine ⟨⟨hcount, fun p hp hpf => hmem p hp hpf⟩, ?_, fun _ => rfl⟩
      intro hcf
      exact hmem (c, ci) (lookupA_some_mem _ _ _ hci) hcf
  | none =>
      cases hd : lookupA s.should_trace_cache c.co_filename with
      | some disp =>
          rw [sysmon_py_start_cachehit env c s disp hci hd] at h
          obtain ⟨hst, hca, ci, hco⟩ := finishStart_ok_fields disp c _ s' h
          have hst2 : s'.stc_calls = s.stc_calls := hst
          have hca2 : s'.should_trace_cache = s.should_trace_cache := hca
          have hco2 : s'.code_infos = setA s.code_infos c ci := hco
          refine ⟨⟨?_, ?_⟩, ?_, fun _ => by rw [hca2]⟩
          · rw [hst2, hca2]; exact hcount
          · intro p hp hpf
            rw [hca2]
            rw [hco2] at hp
            rcases mem_setA _ _ _ _ hp with h2 | h2
            · subst h2
              have h3 : c.co_filename = f := hpf
              rw [← h3, hd]
              rfl
            · exact hmem p h2 hpf
          · intro hcf
            rw [hca2, ← hcf, hd]
            rfl
      | none =>
          cases he : env c.co_filename with
          | error e =>
              rw [sysmon_py_start_miss_err env c s e hci hd he] at h
              cases h
          | ok disp =>
              rw [sysmon_py_start_miss_ok env c s disp hci hd he] at h
              obtain ⟨hst, hca, ci, hco⟩ := finishStart_ok_fields disp c _ s' h
              have hst2 : s'.stc_calls = s.stc_calls ++ [c.co_filename] := hst
              have hca2 : s'.should_trace_cache
                  = setA s.should_trace_cache c.co_filename disp := hca
              have hco2 : s'.code_infos = setA s.code_infos c ci := hco
              by_cases hcf : c.co_filename = f
              · subst hcf
                have h0 : countOcc c.co_filename s.stc_calls = 0 := by
                  rw [hcount, hd]
                  rfl
                refine ⟨⟨?_, ?_⟩, fun _ => ?_, fun hne => absurd rfl hne⟩
                · rw [hst2, countOcc_append, hca2, lookupA_setA_self, h0]
                  simp [countOcc]
                · intro p hp hpf
                  rw [hca2, lookupA_setA_self]
                  rfl
                · rw [hca2, lookupA_setA_self]
                  rfl
              · refine ⟨⟨?_, ?_⟩, fun hcf2 => absurd hcf2 hcf, fun _ => ?_⟩
                · rw [hst2, countOcc_append, hca2, lookupA_setA_ne _ _ _ _ hcf]
                  have h1 : countOcc f [c.co_filename] = 0 := by
                    simp [countOcc, hcf]
                  rw [h1]
                  simpa using hcount
                · intro p hp hpf
                  rw [hca2, lookupA_setA_ne _ _ _ _ hcf]
                  rw [hco2] at hp
                  rcases mem_setA _ _ _ _ hp with h2 | h2
                  · subst h2
                    exact absurd hpf hcf
                  · exact hmem p h2 hpf
                · rw [hca2, lookupA_setA_ne _ _ _ _ hcf]

theorem runEvents_count (env : String → Except PyErr FileDisposition) (f : String) :
    ∀ (evs : List Event) (s s' : TracerState), CacheInv f s →
      runEvents env evs s = .ok s' →
      countOcc f s'.stc_calls
        = if (hasStartFor f evs || (lookupA s.should_trace_cache f).isSome)
          then 1 else 0 := by
  intro evs
  induction evs with
  | nil =>
      intro s s' hinv hrun
      simp only [runEvents, Except.ok.injEq] at hrun
      subst hrun
      simpa [hasStartFor] using hinv.1
  | cons e rest ih =>
      intro s s' hinv hrun
      cases e with
      | pyStart c =>
          simp only [runEvents, step] at hrun
          cases hstep : panopticon (sysmon_py_start env c) s with
          | error et => rw [hstep] at hrun; cases hrun
          | ok s1 =>
              rw [hstep] at hrun
              have hok := (panopticon_ok_iff (sysmon_py_start env c) s s1).mp hstep
              obtain ⟨hinv1, hsome, hne⟩ :=
                sysmon_py_start_cache_effects f env c s s1 hok hinv
              have hrec := ih s1 s' hinv1 hrun
              by_cases hcf : c.co_filename = f
              · rw [hrec, hsome hcf]
                simp [hasStartFor, hcf]
              · rw [hrec, hne hcf]
                simp [hasStartFor, hcf]
      | pyResume n =>
          simp only [runEvents, step] at hrun
          have hinv1 : CacheInv f (sysmon_py_resume n s) :=
            cacheInv_congr f s _ rfl rfl rfl hinv
          rw [ih (sysmon_py_resume n s) s' hinv1 hrun]
          simp [hasStartFor, sysmon_py_resume]
      | pyReturn c =>
          simp only [runEvents, step] at hrun
          obtain ⟨h1, h2, h3⟩ := sysmon_py_return_fields c s
          have hinv1 : CacheInv f (sysmon_py_return c s) :=
            cacheInv_congr f s _ h1 h2 h3 hinv
          rw [ih (sysmon_py_return c s) s' hinv1 hrun]
          rw [h2]
          simp [hasStartFor]
      | pyYield c =>
          simp only [runEvents, step] at hrun
          have hinv1 : CacheInv f (sysmon_py_yield s) :=
            cacheInv_congr f s _ rfl rfl rfl hinv
          rw [ih (sysmon_py_yield s) s' hinv1 hrun]
          simp [hasStartFor, sysmon_py_yield]
      | lineEx n =>
          simp only [runEvents, step] at hrun
          obtain ⟨h1, h2, h3⟩ := sysmon_line_fields n s
          have hinv1 : CacheInv f (sysmon_line n s) :=
            cacheInv_congr f s _ h1 h2 h3 hinv
          rw [ih (sysmon_line n s) s' hinv1 hrun]
          rw [h2]
          simp [hasStartFor]

/-- C3: within one tracer session (starting from the freshly
constructed state with empty caches), across any sequence of events
processed without error, the external `should_trace` predicate is
invoked exactly once for a file name `f` if the sequence contains at
least one unit-start event for a code unit with file name `f`, and
never otherwise; all later resolutions for `f` are served from
`should_trace_cache` (or from `code_infos`) without invoking the
predicate. -/
theorem c3_idempotent_decision (env : String → Except PyErr FileDisposition)
    (evs : List Event) (f : String) (ta th : Bool) (s' : TracerState)
    (hrun : runEvents env evs (initState ta th) = .ok s') :
    countOcc f s'.stc_calls = if hasStartFor f evs then 1 else 0 := by
  have hinv : CacheInv f (initState ta th) := by
    constructor
    · rfl
    · intro p hp
      simp [initState] at hp
  have h := runEvents_count env f evs (initState ta th) s' hinv hrun
  simpa [initState, lookupA] using h

/-- A second code unit in the same file as `codeU` (a distinct code
object, so it misses `code_infos` on its first start). -/
def codeU2 : Code :=
  { id := 1, co_filename := "u.py", co_firstlineno := 20,
    instructions := [⟨0, some 20⟩] }

/-- Three unit-starts for file "u.py": twice the same unit, once a
distinct unit of the same file. -/
def evsManyStarts : List Event :=
  [.pyStart codeU, .pyReturn codeU, .pyStart codeU2, .pyStart codeU]

/-- The state after `evsManyStarts`. -/
def resManyStarts : TracerState :=
  getOk (runEvents envTraceAll evsManyStarts (initState false false)) (initState false false)

/-- Witness for `c3_idempotent_decision`: three starts for file
"u.py", one predicate invocation. -/
theorem c3_idempotent_decision_witness :
    countOcc "u.py" resManyStarts.stc_calls
      = if hasStartFor "u.py" evsManyStarts then 1 else 0 :=
  c3_idempotent_decision envTraceAll evsManyStarts "u.py" false false resManyStarts rfl

/-! ### C4: disabled-unit isolation -/

theorem sysmon_line_nocur (n : Int) (t : TracerState) (h : t.cur_file_data = none) :
    sysmon_line n t = t := by
  simp [sysmon_line, h]

theorem sysmon_py_return_data_nocur (c : Code) (t : TracerState)
    (h : t.cur_file_data = none) : (sysmon_py_return c t).data = t.data := by
  unfold sysmon_py_return
  cases hf : t.frame_stack with
  | nil => simp [h, hf]
  | cons p rest => obtain ⟨fd, fn, ll⟩ := p; simp [h, hf]

/-- C4: events for a unit whose disposition is trace=false never
mutate the Collected Data Store.  (i) A unit-start resolving such a
disposition leaves `data` unchanged and sets `cur_file_data = None`;
(ii) a unit-start served from `code_infos` with a `None` file-data
reference (how disabled units are registered) does the same; (iii)
while `cur_file_data = None`, line events are a complete no-op and
return/resume/yield events leave `data` unchanged. -/
theorem c4_disabled_unit_isolation
    (env : String → Except PyErr FileDisposition) (c : Code) (s s' : TracerState)
    (disp : FileDisposition)
    (hci : lookupA s.code_infos c = none)
    (hdisp : lookupA s.should_trace_cache c.co_filename = some disp ∨
      (lookupA s.should_trace_cache c.co_filename = none ∧
        env c.co_filename = .ok disp))
    (htr : disp.trace = false)
    (hok : panopticon (sysmon_py_start env c) s = .ok s') :
    (s'.data = s.data ∧ s'.cur_file_data = none) ∧
    (∀ (ci : CodeInfo) (t t' : TracerState) (c2 : Code),
        lookupA t.code_infos c2 = some ci → ci.file_data = none →
        panopticon (sysmon_py_start env c2) t = .ok t' →
        t'.data = t.data ∧ t'.cur_file_data = none) ∧
    (∀ (t : TracerState) (n : Int) (c2 : Code) (m : Int),
        t.cur_file_data = none →
        sysmon_line n t = t ∧ (sysmon_py_return c2 t).data = t.data ∧
        (sysmon_py_resume m t).data = t.data ∧ (sysmon_py_yield t).data = t.data) := by
  have hstart := (panopticon_ok_iff (sysmon_py_start env c) s s').mp hok
  refine ⟨?_, ?_, ?_⟩
  · rcases hdisp with hd | ⟨hd, he⟩
    · rw [sysmon_py_start_cachehit env c s disp hci hd,
        finishStart_eq_false disp c _ htr] at hstart
      cases hstart
      exact ⟨rfl, rfl⟩
    · rw [sysmon_py_start_miss_ok env c s disp hci hd he,
        finishStart_eq_false disp c _ htr] at hstart
      cases hstart
      exact ⟨rfl, rfl⟩
  · intro ci t t' c2 hci2 hfd hok2
    have hstart2 := (panopticon_ok_iff (sysmon_py_start env c2) t t').mp hok2
    rw [sysmon_py_start_cached env c2 t ci hci2] at hstart2
    cases hstart2
    exact ⟨rfl, hfd⟩
  · intro t n c2 m h
    refine ⟨sysmon_line_nocur n t h, sysmon_py_return_data_nocur c2 t h, rfl, rfl⟩

/-- The state after a unit-start whose disposition declines tracing. -/
def resDisabledStart : TracerState :=
  getOk (panopticon (sysmon_py_start envTraceNone codeU) (initState false false))
    (initState false false)

/-- Witness for `c4_disabled_unit_isolation` at a concrete input. -/
theorem c4_disabled_unit_isolation_witness :
    resDisabledStart.data = (initState false false).data ∧
    resDisabledStart.cur_file_data = none :=
  (c4_disabled_unit_isolation envTraceNone codeU (initState false false)
    resDisabledStart ⟨false, none⟩ rfl (Or.inr ⟨rfl, rfl⟩) rfl rfl).1

/-! ### C5: unit-return with an empty Frame Stack -/

/-- C5 (counterexample): the claim says a unit-return arriving with an
empty Frame Stack is a fatal internal-consistency fault unless the
process is shutting down.  On the code it is not: from the freshly
constructed state (`in_atexit = false`, i.e. not shutting down, empty
stack) the handler completes normally and returns the state
unchanged — the pop is unconditionally guarded by
`if self.frame_stack:` and `in_atexit` is never consulted. -/
theorem c5_protocol_violation_counterexample :
    (initState false false).in_atexit = false ∧
    (initState false false).frame_stack = [] ∧
    sysmon_py_return codeU (initState false false) = initState false false :=
  ⟨rfl, rfl, rfl⟩

/-- C5 (amended): when a unit-return event arrives while the Frame
Stack is empty, the pop is always a benign no-op — the current
fields are left untouched and the stack stays empty — regardless of
whether the process is shutting down: the handler's behaviour is
independent of `in_atexit` (which `__init__` registers an `atexit`
hook to set, but which no handler ever reads). -/
theorem c5_return_empty_stack_amended (c : Code) (s : TracerState)
    (h : s.frame_stack = []) :
    (sysmon_py_return c s).frame_stack = [] ∧
    (sysmon_py_return c s).cur_file_data = s.cur_file_data ∧
    (sysmon_py_return c s).cur_file_name = s.cur_file_name ∧
    (sysmon_py_return c s).last_line = s.last_line ∧
    ∀ b : Bool, sysmon_py_return c { s with in_atexit := b }
      = { sysmon_py_return c s with in_atexit := b } := by
  unfold sysmon_py_return addDatum
  cases hc : s.cur_file_data with
  | none => simp [h, hc]
  | some key => by_cases ha : s.trace_arcs <;> simp [h, hc, ha]

/-- Witness for `c5_return_empty_stack_amended` at a concrete input. -/
theorem c5_return_empty_stack_witness :
    (sysmon_py_return codeU (initState false false)).frame_stack = [] :=
  (c5_return_empty_stack_amended codeU (initState false false) rfl).1

/-! ### C6: start() from a different thread -/

/-- A tracer configured with a threading module whose first start was
recorded on thread ident 1. -/
def sDiffThread : TracerState := { initState false true with thread := some 1 }

/-- C6 (code bug): with a threading module configured and thread 1
recorded at first start, calling `start()` from thread 2 does not
perform a defined no-op/decline: the source executes
`return self._cached_bound_method_trace`, but that attribute is
assigned nowhere in the file (the field is still `none`), so the call
raises `AttributeError` instead of returning a valid value. -/
theorem c6_start_different_thread_raises :
    sDiffThread.cached_bound_method_trace = none ∧
    tracerStart 2 sDiffThread = .error (.attributeError, sDiffThread) :=
  ⟨rfl, rfl⟩

/-! ### C7: a failing trace decision is not cached -/

/-- The exception of a raising run, if any. -/
def errOf : Except (PyErr × TracerState) TracerState → Option PyErr
  | .error (e, _) => some e
  | .ok _ => none

/-- The state at the moment of the raise of a raising run (default
otherwise). -/
def errStateOf (r : Except (PyErr × TracerState) TracerState)
    (dflt : TracerState) : TracerState :=
  match r with
  | .error (_, t) => t
  | .ok _ => dflt

/-- C7: if the external `should_trace` predicate raises `e` while
resolving a new code unit's file, the unit-start handler propagates
exactly `e` to its caller (through the `panopticon` wrapper) and the
decision cache is left unchanged — in particular no disposition is
stored for that file name — and the Collected Data Store is
untouched. -/
theorem c7_failed_decision_not_cached
    (env : String → Except PyErr FileDisposition) (c : Code) (s : TracerState)
    (e : PyErr)
    (hci : lookupA s.code_infos c = none)
    (hd : lookupA s.should_trace_cache c.co_filename = none)
    (he : env c.co_filename = .error e) :
    errOf (panopticon (sysmon_py_start env c) s) = some e ∧
    (errStateOf (panopticon (sysmon_py_start env c) s) s).should_trace_cache
      = s.should_trace_cache ∧
    (errStateOf (panopticon (sysmon_py_start env c) s) s).data = s.data := by
  have h := sysmon_py_start_miss_err env c s e hci hd he
  unfold panopticon
  rw [h]
  exact ⟨rfl, rfl, rfl⟩

/-- A predicate that always raises. -/
def envRaise : String → Except PyErr FileDisposition :=
  fun _ => .error (.external "boom")

/-- Witness for `c7_failed_decision_not_cached` at a concrete input. -/
theorem c7_failed_decision_not_cached_witness :
    errOf (panopticon (sysmon_py_start envRaise codeU) (initState false false))
      = some (.external "boom") ∧
    (errStateOf (panopticon (sysmon_py_start envRaise codeU) (initState false false))
        (initState false false)).should_trace_cache
      = (initState false false).should_trace_cache ∧
    (errStateOf (panopticon (sysmon_py_start envRaise codeU) (initState false false))
        (initState false false)).data = (initState false false).data :=
  c7_failed_decision_not_cached envRaise codeU (initState false false)
    (.external "boom") rfl rfl rfl

/-! ### C8: fault containment of the panopticon wrapper -/

/-- C8: for every event handler, if an exception `e` escapes while
handling an event (leaving the tracer in state `t`), the `panopticon`
wrapper disables further event delivery
(`sys.monitoring.set_events(COVERAGE_ID, 0)`, modelled as
`monitoring_on := false`) in the propagated outcome before the
exception reaches the caller, and all data collected up to the raise
is preserved unchanged. -/
theorem c8_fault_containment
    (meth : TracerState → Except (PyErr × TracerState) TracerState)
    (s : TracerState) (e : PyErr) (t : TracerState)
    (herr : meth s = .error (e, t)) :
    panopticon meth s = .error (e, { t with monitoring_on := false }) ∧
    ({ t with monitoring_on := false }).monitoring_on = false ∧
    ({ t with monitoring_on := false }).data = t.data := by
  unfold panopticon
  rw [herr]
  exact ⟨rfl, rfl, rfl⟩

/-- A handler that raises immediately, for the C8 witness. -/
def methRaise : TracerState → Except (PyErr × TracerState) TracerState :=
  fun t => .error (.external "x", t)

/-- Witness for `c8_fault_containment` at a concrete input. -/
theorem c8_fault_containment_witness :
    panopticon methRaise (initState false false)
      = .error (.external "x", { initState false false with monitoring_on := false }) ∧
    ({ initState false false with monitoring_on := false }).monitoring_on = false ∧
    ({ initState false false with monitoring_on := false }).data
      = (initState false false).data :=
  c8_fault_containment methRaise (initState false false) (.external "x")
    (initState false false) rfl

/-! ### C9: Line Index Builder totality -/

/-- The most recently seen line start while scanning a prefix of the
instruction list, starting from `c` (the specification of `cur_line`
in `bytes_to_lines`). -/
def lastStart : List Instr → Option Int → Option Int
  | [], c => c
  | i :: rest, c =>
      lastStart rest (match i.starts_line with | some l => some l | none => c)

theorem b2lAux_preserve :
    ∀ (l : List Instr) (m : List (Int × Option Int)) (c : Option Int) (o : Int),
      (∀ i ∈ l, i.offset ≠ o) → lookupA (b2lAux l m c) o = lookupA m o := by
  intro l
  induction l with
  | nil => intro m c o _; rfl
  | cons i rest ih =>
      intro m c o h
      have hne : i.offset ≠ o := h i (List.mem_cons_self i rest)
      simp only [b2lAux]
      rw [ih _ _ o (fun j hj => h j (List.mem_cons.mpr (Or.inr hj)))]
      exact lookupA_setA_ne _ _ _ _ hne

theorem b2lAux_lookup :
    ∀ (l : List Instr) (m : List (Int × Option Int)) (c : Option Int),
      (l.map (fun i => i.offset)).Nodup →
      ∀ (k : Nat) (hk : k < l.length),
        lookupA (b2lAux l m c) ((l.get ⟨k, hk⟩).offset)
          = some (lastStart (l.take (k + 1)) c) := by
  intro l
  induction l with
  | nil => intro m c _ k hk; simp at hk
  | cons i rest ih =>
      intro m c hnd k hk
      have hnd1 : (∀ x ∈ rest, ¬x.offset = i.offset) ∧
          (List.map (fun i => i.offset) rest).Nodup := by simpa using hnd
      obtain ⟨hni, hnd2⟩ := hnd1
      cases k with
      | zero =>
          simp only [b2lAux, List.get, List.take_succ_cons, List.take_zero]
          rw [b2lAux_preserve rest _ _ i.offset ?hno]
          · exact lookupA_setA_self _ _ _
          case hno =>
            intro j hj heq
            exact hni j hj heq
      | succ k2 =>
          simp only [b2lAux, List.get, List.take_succ_cons]
          exact ih _ _ hnd2 k2 (by simpa using hk)

theorem lastStart_isSome :
    ∀ (l : List Instr) (c : Option Int), c.isSome = true →
      (lastStart l c).isSome = true := by
  intro l
  induction l with
  | nil => intro c h; exact h
  | cons i rest ih =>
      intro c h
      cases hs : i.starts_line with
      | some n => simp only [lastStart, hs]; exact ih _ rfl
      | none => simp only [lastStart, hs]; exact ih c h

theorem lastStart_take_isSome (l : List Instr) (k : Nat)
    (h : ∀ (h0 : 0 < l.length), ((l.get ⟨0, h0⟩).starts_line).isSome = true)
    (hk : k < l.length) :
    (lastStart (l.take (k + 1)) none).isSome = true := by
  cases l with
  | nil => simp at hk
  | cons i rest =>
      have hi := h (by simp)
      obtain ⟨n, hs⟩ := Option.isSome_iff_exists.mp hi
      have hs2 : i.starts_line = some n := hs
      simp only [List.take_succ_cons, lastStart, hs2]
      exact lastStart_isSome _ _ rfl

/-- C9: for a code unit whose instructions have distinct offsets and
whose first instruction starts a line (a well-formed unit as produced
by the VM), `bytes_to_lines` is defined on every instruction offset
of the unit, each offset is mapped to a source line number (not
`None`), and the value at the offset of the k-th instruction is the
most recently seen line start up to and including that instruction. -/
theorem c9_line_index_totality (code : Code)
    (hnd : (code.instructions.map (fun i => i.offset)).Nodup)
    (hfirst : ∀ (h0 : 0 < code.instructions.length),
      ((code.instructions.get ⟨0, h0⟩).starts_line).isSome = true) :
    ∀ (k : Nat) (hk : k < code.instructions.length),
      lookupA (bytes_to_lines code) ((code.instructions.get ⟨k, hk⟩).offset)
        = some (lastStart (code.instructions.take (k + 1)) none) ∧
      (lastStart (code.instructions.take (k + 1)) none).isSome = true := by
  intro k hk
  exact ⟨b2lAux_lookup code.instructions [] none hnd k hk,
    lastStart_take_isSome code.instructions k hfirst hk⟩

/-- A unit with an instruction that does not start a line, for the C9
witness. -/
def codeW : Code :=
  { id := 2, co_filename := "w.py", co_firstlineno := 5,
    instructions := [⟨0, some 5⟩, ⟨2, none⟩, ⟨4, some 6⟩, ⟨6, none⟩] }

/-- Witness for `c9_line_index_totality` at a concrete input (the
last instruction, which inherits line 6 from the previous line
start). -/
theorem c9_line_index_totality_witness :
    lookupA (bytes_to_lines codeW) ((codeW.instructions.get ⟨3, by decide⟩).offset)
      = some (lastStart (codeW.instructions.take 4) none) ∧
    (lastStart (codeW.instructions.take 4) none).isSome = true :=
  c9_line_index_totality codeW (by decide) (fun _ => rfl) 3 (by decide)

/-! ### C10: trace=true requires a source file name -/

/-- C10: when a unit-start resolves a new code unit to a disposition
with trace=true and source_filename=None, the handler hits
`assert tracename is not None`: it raises `AssertionError` (through
the `panopticon` wrapper) and records no data — the Collected Data
Store at the moment of the raise equals the store before the event. -/
theorem c10_trace_requires_source_filename
    (env : String → Except PyErr FileDisposition) (c : Code) (s : TracerState)
    (disp : FileDisposition)
    (hci : lookupA s.code_infos c = none)
    (hdisp : lookupA s.should_trace_cache c.co_filename = some disp ∨
      (lookupA s.should_trace_cache c.co_filename = none ∧
        env c.co_filename = .ok disp))
    (htr : disp.trace = true) (hsf : disp.source_filename = none) :
    errOf (panopticon (sysmon_py_start env c) s) = some .assertionError ∧
    (errStateOf (panopticon (sysmon_py_start env c) s) s).data = s.data := by
  rcases hdisp with hd | ⟨hd, he⟩
  · have h := sysmon_py_start_cachehit env c s disp hci hd
    rw [finishStart_eq_assert disp c _ htr hsf] at h
    unfold panopticon
    rw [h]
    exact ⟨rfl, rfl⟩
  · have h := sysmon_py_start_miss_ok env c s disp hci hd he
    rw [finishStart_eq_assert disp c _ htr hsf] at h
    unfold panopticon
    rw [h]
    exact ⟨rfl, rfl⟩

/-- A predicate returning trace=true with no source file name. -/
def envBadDisp : String → Except PyErr FileDisposition :=
  fun _ => .ok ⟨true, none⟩

/-- Witness for `c10_trace_requires_source_filename` at a concrete
input. -/
theorem c10_trace_requires_source_filename_witness :
    errOf (panopticon (sysmon_py_start envBadDisp codeU) (initState false false))
      = some .assertionError ∧
    (errStateOf (panopticon (sysmon_py_start envBadDisp codeU) (initState false false))
        (initState false false)).data = (initState false false).data :=
  c10_trace_requires_source_filename envBadDisp codeU (initState false false)
    ⟨true, none⟩ rfl (Or.inr ⟨rfl, rfl⟩) rfl rfl
